import Mathlib

/-!
Shallow embedding of the game engines of `game-strategeis-battle`
(three Python games: TicTacToe, Reversi and the numeric "Kirzhanovsky"
game), together with theorems settling the frozen claims about them.

Each definition mirrors one Python function; the source file and
function are named in the doc comment.
-/

/-! ## Generic 2D grid helpers

The Python boards are lists of row lists, read as `self.board[row][column]`
and written as `self.board[row][column] = value`.  We model those two
accesses once, generically in the cell type. -/

/-- Read `b[r][c]`, with default `d` (the default is never hit on the
well-formed boards the engines build, where every access is
bounds-checked first). -/
def gridGet (d : α) (b : List (List α)) (r c : Nat) : α :=
  (b.getD r []).getD c d

/-- Write `b[r][c] = v` (`List.set` out of range is the identity, which
again never happens on the engines' bounds-checked accesses). -/
def gridSet (b : List (List α)) (r c : Nat) (v : α) : List (List α) :=
  b.set r ((b.getD r []).set c v)

theorem gridGet_gridSet (d : α) (b : List (List α)) (r c : Nat) (v : α)
    (r' c' : Nat) :
    gridGet d (gridSet b r c v) r' c' = gridGet d b r' c' ∨
      (r' = r ∧ c' = c ∧ gridGet d (gridSet b r c v) r' c' = v) := by
  unfold gridGet gridSet
  by_cases hr : r' = r
  · subst hr
    by_cases hrl : r' < b.length
    · have hrow : (b.set r' ((b.getD r' []).set c v)).getD r' [] =
          (b.getD r' []).set c v := by
        simp [List.getD_eq_getElem?_getD, List.getElem?_set_eq_of_lt _ hrl]
      rw [hrow]
      by_cases hc : c' = c
      · subst hc
        by_cases hcl : c' < (b.getD r' []).length
        · right
          refine ⟨rfl, rfl, ?_⟩
          simp only [List.getD_eq_getElem?_getD] at hcl ⊢
          rw [List.getElem?_set_eq_of_lt _ hcl]
          rfl
        · left
          rw [List.set_eq_of_length_le (Nat.not_lt.mp hcl)]
      · left
        simp [List.getD_eq_getElem?_getD, List.getElem?_set_ne (fun h => hc h.symm)]
    · left
      have hid : b.set r' ((b.getD r' []).set c v) = b :=
        List.set_eq_of_length_le (Nat.not_lt.mp hrl)
      rw [hid]
  · left
    simp [List.getD_eq_getElem?_getD, List.getElem?_set_ne (fun h => hr h.symm)]

/-- `gridSet` never puts the default/empty value anywhere if `v` is not
that value: reading after the write yields either the old cell or `v`. -/
theorem gridGet_gridSet_ne (d : α) (b : List (List α)) (r c : Nat) (v : α)
    (r' c' : Nat) (hold : gridGet d b r' c' ≠ d) (hv : v ≠ d) :
    gridGet d (gridSet b r c v) r' c' ≠ d := by
  rcases gridGet_gridSet d b r c v r' c' with h | ⟨_, _, h⟩ <;> rw [h] <;>
    assumption

namespace TTT

/-! ## TicTacToe (`src/TicTacToe/tictactoe.py`) -/

/-- `BoardCell`: `EMPTY = 0`, `X = 1`, `O = 2`. -/
inductive Cell where
  | empty
  | x
  | o
  deriving DecidableEq, Repr

/-- `BoardCell.value`, the numeric value of the enumeration constant. -/
def Cell.val : Cell → Nat
  | .empty => 0
  | .x => 1
  | .o => 2

/-- `PlayerType`: `X = 1`, `O = 2`. -/
inductive Player where
  | x
  | o
  deriving DecidableEq, Repr

/-- `BoardCell(player_type.value)`. -/
def Player.cell : Player → Cell
  | .x => Cell.x
  | .o => Cell.o

/-- `Winner`: `X = 1`, `O = 2`, `DRAW = 3`. -/
inductive Winner where
  | x
  | o
  | draw
  deriving DecidableEq, Repr

/-- `Winner(player_type.value)`. -/
def Player.winner : Player → Winner
  | .x => Winner.x
  | .o => Winner.o

/-- `Move(row, column)` — a pair of Python ints (possibly negative). -/
structure Move where
  row : Int
  column : Int
  deriving DecidableEq, Repr

/-- `GameBoard.board`: a 3×3 list of row lists. -/
abbrev Board := List (List Cell)

/-- `GameBoard.size`. -/
def size : Nat := 3

/-- `GameBoard.__init__`: all cells empty. -/
def initial : Board :=
  [[.empty, .empty, .empty], [.empty, .empty, .empty], [.empty, .empty, .empty]]

/-- Well-formedness of the 3×3 board (always true for boards the engine
builds). -/
def Wf (b : Board) : Prop :=
  b.length = size ∧ ∀ row ∈ b, row.length = size

/-- `self.board[row][column]` (read). -/
def readCell (b : Board) (r c : Nat) : Cell :=
  gridGet .empty b r c

/-- `self.board[row][column] = v` (write). -/
def setCell (b : Board) (r c : Nat) (v : Cell) : Board :=
  gridSet b r c v

/-- The error cases of `IncorrectMove` raised by `GameBoard.apply_move`. -/
inductive MoveErr where
  | badCoords
  | occupied
  deriving DecidableEq, Repr

/-- `GameBoard.apply_move` (tictactoe.py lines 101–111).  The Python
method mutates `self.board` or raises `IncorrectMove`; we return the
resulting board state together with the error, if any. -/
def apply_move (b : Board) (p : Player) (m : Move) : Board × Option MoveErr :=
  if m.row < 0 ∨ m.row ≥ (size : Int) ∨ m.column < 0 ∨ m.column ≥ (size : Int) then
    (b, some .badCoords)
  else if readCell b m.row.toNat m.column.toNat ≠ .empty then
    (b, some .occupied)
  else
    (setCell b m.row.toNat m.column.toNat p.cell, none)

/-- `GameBoard.is_full`. -/
def is_full (b : Board) : Bool :=
  (List.range size).all fun r =>
    (List.range size).all fun c => !(readCell b r c = .empty)

/-- `GameBoard._is_cells_full_by_player`: `set(cells)` has exactly one
element and it is not `EMPTY`; then that element's `Winner`. -/
def is_cells_full_by_player (cells : List Cell) : Option Winner :=
  match cells.dedup with
  | [Cell.x] => some .x
  | [Cell.o] => some .o
  | _ => none

/-- `GameBoard._get_column`. -/
def get_column (b : Board) (c : Nat) : List Cell :=
  b.map fun row => row.getD c .empty

/-- `GameBoard.get_winner` (tictactoe.py lines 134–155): the full-board
check comes first and yields `DRAW`; otherwise the three rows, then the
three columns, then the two diagonals are scanned, first uniform
non-empty group winning.  The Python `for` loops over the fixed size 3
are unrolled. -/
def get_winner (b : Board) : Option Winner :=
  if is_full b then some .draw
  else
    (is_cells_full_by_player (b.getD 0 [])).orElse fun _ =>
    (is_cells_full_by_player (b.getD 1 [])).orElse fun _ =>
    (is_cells_full_by_player (b.getD 2 [])).orElse fun _ =>
    (is_cells_full_by_player (get_column b 0)).orElse fun _ =>
    (is_cells_full_by_player (get_column b 1)).orElse fun _ =>
    (is_cells_full_by_player (get_column b 2)).orElse fun _ =>
    (is_cells_full_by_player [readCell b 0 0, readCell b 1 1, readCell b 2 2]).orElse fun _ =>
    is_cells_full_by_player [readCell b 0 2, readCell b 1 1, readCell b 2 0]

/-- `GameBoard.create_copy_for_player` (tictactoe.py lines 169–172):
`board_copy.board = [[cell.value for cell in row] for row in self.board]`. -/
def create_copy_for_player (b : Board) : List (List Nat) :=
  b.map fun row => row.map Cell.val

end TTT

-- quick sanity examples (kept: they also pin down the embedding)
example : TTT.get_winner TTT.initial = none := by decide
example : TTT.get_winner [[.x, .x, .x], [.o, .o, .empty], [.empty, .empty, .empty]]
    = some .x := by decide
example : (TTT.apply_move TTT.initial .x ⟨1, 1⟩).2 = none := by decide
example : (TTT.apply_move TTT.initial .x ⟨3, 1⟩).2 = some .badCoords := by decide

/-! ## Claim C3 -/

/-- C3, counterexample: on the completely filled board whose top row is
all `X`, `get_winner` returns `DRAW`, not a win for `X` as the claim
("regardless of the contents of every other cell, including boards whose
remaining cells are all occupied") requires: the full-board check runs
before any line is scanned. -/
theorem C3_counterexample :
    TTT.get_winner [[.x, .x, .x], [.o, .o, .x], [.x, .o, .o]] = some .draw ∧
      some TTT.Winner.draw ≠ some TTT.Winner.x := by decide

/-- Modelled from the spec, for comparison with `get_winner`: the owner
of a uniform non-empty line (a full line uniquely belongs to one
player). -/
def TTT.lineOwner : List TTT.Cell → Option TTT.Winner
  | [TTT.Cell.x, TTT.Cell.x, TTT.Cell.x] => some .x
  | [TTT.Cell.o, TTT.Cell.o, TTT.Cell.o] => some .o
  | _ => none

/-- Modelled from the spec: the board's lines in the spec's scan order —
rows 0–2, then columns 0–2, then the main diagonal, then the
anti-diagonal. -/
def TTT.scanLines (b : TTT.Board) : List (List TTT.Cell) :=
  [b.getD 0 [], b.getD 1 [], b.getD 2 [],
   TTT.get_column b 0, TTT.get_column b 1, TTT.get_column b 2,
   [TTT.readCell b 0 0, TTT.readCell b 1 1, TTT.readCell b 2 2],
   [TTT.readCell b 0 2, TTT.readCell b 1 1, TTT.readCell b 2 0]]

/-- On 3-element lines, the code's `set(cells)`-based uniformity test
agrees with the spec's uniform non-empty-line owner. -/
theorem TTT.is_cells_full_by_player_eq_lineOwner :
    ∀ l : List TTT.Cell, l.length = 3 →
      TTT.is_cells_full_by_player l = TTT.lineOwner l := by
  intro l hl
  match l, hl with
  | [a, b, c], _ => cases a <;> cases b <;> cases c <;> decide

theorem option_orElse_none_right (x : Option α) :
    (x.orElse fun _ => none) = x := by
  cases x <;> rfl

theorem findSome?_cons_orElse (f : α → Option β) (a : α) (l : List α) :
    (a :: l).findSome? f = (f a).orElse fun _ => l.findSome? f := by
  cases h : f a <;> simp [List.findSome?_cons, h, Option.orElse]

/-- C3, amended: a completely full board is reported as a draw even when
it contains a uniform line; on a board that is not completely full, a
top row filled with one player's mark is detected as a win for that
player regardless of the other cells, and in general the winner is
whichever uniform non-empty line is found first scanning rows, then
columns, then the two diagonals. -/
theorem C3_top_row_win_on_non_full_board :
    ∀ b : TTT.Board, TTT.Wf b →
      (TTT.is_full b = true → TTT.get_winner b = some .draw) ∧
      (TTT.is_full b = false → ∀ p : TTT.Player,
        b.getD 0 [] = [p.cell, p.cell, p.cell] →
        TTT.get_winner b = some p.winner) ∧
      (TTT.is_full b = false →
        TTT.get_winner b = (TTT.scanLines b).findSome? TTT.lineOwner) := by
  intro b hwf
  refine ⟨?_, ?_, ?_⟩
  · intro h
    simp [TTT.get_winner, h]
  · intro h p htop
    simp only [List.getD_eq_getElem?_getD] at htop
    have hx : TTT.is_cells_full_by_player [TTT.Cell.x, TTT.Cell.x, TTT.Cell.x]
        = some TTT.Winner.x := by decide
    have ho : TTT.is_cells_full_by_player [TTT.Cell.o, TTT.Cell.o, TTT.Cell.o]
        = some TTT.Winner.o := by decide
    cases p <;> simp_all [TTT.get_winner, TTT.Player.cell, TTT.Player.winner]
  · intro h
    obtain ⟨hlen, hrows⟩ := hwf
    have hrowlen : ∀ i, i < 3 → (b.getD i []).length = 3 := by
      intro i hi
      have hi2 : i < b.length := by rw [hlen]; exact hi
      rw [List.getD_eq_getElem?_getD, List.getElem?_eq_getElem hi2,
        Option.getD_some]
      exact hrows _ (List.getElem_mem hi2)
    have e0 := TTT.is_cells_full_by_player_eq_lineOwner _
      (hrowlen 0 (by omega))
    have e1 := TTT.is_cells_full_by_player_eq_lineOwner _
      (hrowlen 1 (by omega))
    have e2 := TTT.is_cells_full_by_player_eq_lineOwner _
      (hrowlen 2 (by omega))
    have ec0 := TTT.is_cells_full_by_player_eq_lineOwner (TTT.get_column b 0)
      (by simp [TTT.get_column, hlen, TTT.size])
    have ec1 := TTT.is_cells_full_by_player_eq_lineOwner (TTT.get_column b 1)
      (by simp [TTT.get_column, hlen, TTT.size])
    have ec2 := TTT.is_cells_full_by_player_eq_lineOwner (TTT.get_column b 2)
      (by simp [TTT.get_column, hlen, TTT.size])
    have ed0 := TTT.is_cells_full_by_player_eq_lineOwner
      [TTT.readCell b 0 0, TTT.readCell b 1 1, TTT.readCell b 2 2] rfl
    have ed1 := TTT.is_cells_full_by_player_eq_lineOwner
      [TTT.readCell b 0 2, TTT.readCell b 1 1, TTT.readCell b 2 0] rfl
    unfold TTT.get_winner TTT.scanLines
    rw [if_neg (by simp [h])]
    rw [findSome?_cons_orElse, findSome?_cons_orElse, findSome?_cons_orElse,
      findSome?_cons_orElse, findSome?_cons_orElse, findSome?_cons_orElse,
      findSome?_cons_orElse, findSome?_cons_orElse, List.findSome?_nil,
      option_orElse_none_right]
    rw [e0, e1, e2, ec0, ec1, ec2, ed0, ed1]

/-- Witness for C3's amended theorem at a concrete non-full board. -/
theorem C3_top_row_win_on_non_full_board_witness :
    TTT.get_winner [[.x, .x, .x], [.o, .o, .empty], [.empty, .empty, .empty]]
      = some TTT.Winner.x :=
  (C3_top_row_win_on_non_full_board
      [[.x, .x, .x], [.o, .o, .empty], [.empty, .empty, .empty]]
      (by unfold TTT.Wf; exact ⟨by decide, by decide⟩)).2.1
    (by decide) TTT.Player.x (by decide)

namespace Rev

/-! ## Reversi (`src/Reversi/reversi.py`) -/

/-- `BoardCell`: `EMPTY = 0`, `BLACK = 1`, `WHITE = 2`. -/
inductive Cell where
  | empty
  | black
  | white
  deriving DecidableEq, Repr

/-- `BoardCell.value`. -/
def Cell.val : Cell → Nat
  | .empty => 0
  | .black => 1
  | .white => 2

/-- `BoardCell.inverse`: `BoardCell(3 - self.value)`.  On `EMPTY` the
Python constructor call is `BoardCell(3)`, which raises `ValueError`;
that failure is modelled as `none`. -/
def Cell.inverse? : Cell → Option Cell
  | .empty => none
  | .black => some .white
  | .white => some .black

/-- `PlayerType`: `BLACK = 1`, `WHITE = 2`. -/
inductive Player where
  | black
  | white
  deriving DecidableEq, Repr

/-- `BoardCell(player_type.value)`. -/
def Player.cell : Player → Cell
  | .black => Cell.black
  | .white => Cell.white

/-- `Move(row, column)` — a pair of Python ints. -/
structure Move where
  row : Int
  column : Int
  deriving DecidableEq, Repr

/-- `GameBoard.board`: an 8×8 list of row lists. -/
abbrev Board := List (List Cell)

/-- `GameBoard.size`. -/
def size : Nat := 8

/-- `self.board[row][column]` (read, `Nat` coordinates). -/
def readCell (b : Board) (r c : Nat) : Cell :=
  gridGet .empty b r c

/-- `self.board[row][column] = v` (write). -/
def setCell (b : Board) (r c : Nat) (v : Cell) : Board :=
  gridSet b r c v

/-- `GameBoard._is_valid_coordinates`. -/
def is_valid_coordinates (r c : Int) : Bool :=
  0 ≤ r && r < (size : Int) && 0 ≤ c && c < (size : Int)

/-- Board read at `Int` coordinates.  Every board access in the Python
engine is guarded by `_is_valid_coordinates`, so the coordinates are
non-negative whenever this is consulted. -/
def cellAt (b : Board) (r c : Int) : Cell :=
  readCell b r.toNat c.toNat

/-- `GameBoard.__init__`: empty board with the four centre pieces
`board[3][4] = board[4][3] = BLACK`, `board[3][3] = board[4][4] = WHITE`. -/
def initial : Board :=
  [List.replicate 8 .empty, List.replicate 8 .empty, List.replicate 8 .empty,
   [.empty, .empty, .empty, .white, .black, .empty, .empty, .empty],
   [.empty, .empty, .empty, .black, .white, .empty, .empty, .empty],
   List.replicate 8 .empty, List.replicate 8 .empty, List.replicate 8 .empty]

/-- The eight scan directions of `_get_flipped_cells_for_move`. -/
def directions : List (Int × Int) :=
  [(0, 1), (0, -1), (1, 0), (-1, 0), (1, 1), (1, -1), (-1, 1), (-1, -1)]

/-- The `while self._is_valid_coordinates(x, y)` loop inside
`_get_flipped_cells_for_move`: walk from `(x, y)` in direction
`(dx, dy)`, accumulating visited cells; on meeting `board_cell` the
accumulated cells are contributed, on leaving the board nothing is.
Note the loop does NOT stop at an `EMPTY` cell: any cell that is not
`board_cell` is appended.  The fuel argument only bounds the recursion:
a straight ray from an on-board cell passes through at most `size`
on-board cells, so fuel `size` is never exhausted before the loop's own
exit condition fires. -/
def walk (b : Board) (cell : Cell) (dx dy : Int) :
    Nat → Int → Int → List (Nat × Nat) → List (Nat × Nat)
  | 0, _, _, _ => []
  | fuel + 1, x, y, acc =>
    if is_valid_coordinates x y then
      if cellAt b x y = cell then acc
      else walk b cell dx dy fuel (x + dx) (y + dy) (acc ++ [(x.toNat, y.toNat)])
    else []

/-- `GameBoard._get_flipped_cells_for_move` (reversi.py lines 130–152):
for each direction, skip it when the immediately adjacent cell is
off-board, empty, or already `board_cell`; otherwise run the while loop
above and append its contribution. -/
def get_flipped_cells_for_move (b : Board) (row column : Int) (cell : Cell) :
    List (Nat × Nat) :=
  directions.foldl
    (fun flipped d =>
      let x := row + d.1
      let y := column + d.2
      if !is_valid_coordinates x y || cellAt b x y = Cell.empty || cellAt b x y = cell then
        flipped
      else
        flipped ++ walk b cell d.1 d.2 size x y [])
    []

/-- `GameBoard._is_valid_move`. -/
def is_valid_move (b : Board) (row column : Int) (cell : Cell) : Bool :=
  (get_flipped_cells_for_move b row column cell).length > 0

/-- The error outcomes of `GameBoard.apply_move`: the three
`IncorrectMove` cases, plus the uncaught `ValueError` raised by
`BoardCell(3)` when the flip loop reaches an `EMPTY` cell. -/
inductive MoveErr where
  | badCoords
  | occupied
  | noFlips
  | flipCrash
  deriving DecidableEq, Repr

/-- The flip loop of `apply_move`:
`self.board[x][y] = self.board[x][y].inverse()` for each flipped cell,
in list order.  Reaching an `EMPTY` cell raises `ValueError`
(`BoardCell(3)`) there, leaving the cells already processed flipped —
the returned board is the partially mutated state at the crash point. -/
def flipAll : Board → List (Nat × Nat) → Board × Option MoveErr
  | b, [] => (b, none)
  | b, (x, y) :: rest =>
    match (readCell b x y).inverse? with
    | some v => flipAll (setCell b x y v) rest
    | none => (b, some .flipCrash)

/-- `GameBoard.apply_move` (reversi.py lines 107–125): coordinate check,
vacancy check, `_is_valid_move` check (each raising `IncorrectMove` with
the board untouched), then the new cell is placed and
`_get_flipped_cells_for_move` is re-run on the updated board to drive
the flip loop. -/
def apply_move (b : Board) (p : Player) (m : Move) : Board × Option MoveErr :=
  if ¬ is_valid_coordinates m.row m.column then
    (b, some .badCoords)
  else if cellAt b m.row m.column ≠ .empty then
    (b, some .occupied)
  else if ¬ is_valid_move b m.row m.column p.cell then
    (b, some .noFlips)
  else
    let b1 := setCell b m.row.toNat m.column.toNat p.cell
    flipAll b1 (get_flipped_cells_for_move b1 m.row m.column p.cell)

/-- `GameBoard.create_copy_for_player` (reversi.py lines 191–194):
`board_copy.board = [[cell.value for cell in row] for row in self.board]`. -/
def create_copy_for_player (b : Board) : List (List Nat) :=
  b.map fun row => row.map Cell.val

/-- Modelled from the spec (for comparison with
`get_flipped_cells_for_move`): walk in one direction collecting the run
of opposing cells; the run counts only when a same-owner cell terminates
it before the walk runs off-board or hits an empty cell. -/
def specWalk (b : Board) (cell : Cell) (dx dy : Int) :
    Nat → Int → Int → List (Nat × Nat) → Option (List (Nat × Nat))
  | 0, _, _, _ => none
  | fuel + 1, x, y, acc =>
    if is_valid_coordinates x y then
      if cellAt b x y = cell then some acc
      else if cellAt b x y = Cell.empty then none
      else specWalk b cell dx dy fuel (x + dx) (y + dy) (acc ++ [(x.toNat, y.toNat)])
    else none

/-- Modelled from the spec: the union over the 8 directions of the runs
that begin with at least one opposing cell immediately adjacent to the
target and are terminated by a same-owner cell before running off-board
or hitting an empty cell. -/
def spec_flipped_cells (b : Board) (row column : Int) (cell : Cell) :
    List (Nat × Nat) :=
  directions.foldl
    (fun flipped d =>
      flipped ++ (specWalk b cell d.1 d.2 size (row + d.1) (column + d.2) []).getD [])
    []

end Rev

-- sanity: from the initial position, BLACK at (2, 3) flips exactly (3, 3)
example : (Rev.apply_move Rev.initial .black ⟨2, 3⟩).2 = none := by decide
example : Rev.get_flipped_cells_for_move
    (Rev.setCell Rev.initial 2 3 .black) 2 3 .black = [(3, 3)] := by decide
example : Rev.spec_flipped_cells
    (Rev.setCell Rev.initial 2 3 .black) 2 3 .black = [(3, 3)] := by decide
example : (Rev.apply_move Rev.initial .black ⟨0, 0⟩).2 = some .noFlips := by decide

/-! ## Claim C1 -/

/-- The board exhibiting the divergence for C1: the east ray from (0,0)
is WHITE, EMPTY, BLACK; all other neighbours of (0,0) are empty or
off-board.  (Reachable in play; any board with an opposing run
interrupted by a gap before a same-colour cell works.) -/
def C1board : Rev.Board :=
  [[.empty, .white, .empty, .black, .empty, .empty, .empty, .empty],
   List.replicate 8 .empty, List.replicate 8 .empty, List.replicate 8 .empty,
   List.replicate 8 .empty, List.replicate 8 .empty, List.replicate 8 .empty,
   List.replicate 8 .empty]

/-- C1: the claim is right and the code is wrong.  The spec says a
direction that reaches an empty cell before a same-owner cell
contributes no flipped cells, and a move is legal only if the union of
the contributed runs is non-empty.  On `C1board` with BLACK moving at
(0,0), that union is empty (east ray WHITE, EMPTY, BLACK has a gap), so
the move should be rejected; but `_get_flipped_cells_for_move`'s while
loop does not stop at `EMPTY`, so the code reports the flips
[(0,1),(0,2)] — including the empty cell (0,2) — accepts the move as
valid, and then crashes with an uncaught `ValueError`
(`BoardCell(3 - 0)`) while flipping (0,2), after already flipping (0,1):
partial mutation plus an engine abort instead of an `IncorrectMove`. -/
theorem C1_flip_algorithm_bug :
    Rev.get_flipped_cells_for_move
        (Rev.setCell C1board 0 0 .black) 0 0 .black = [(0, 1), (0, 2)] ∧
      Rev.readCell C1board 0 2 = .empty ∧
      Rev.spec_flipped_cells C1board 0 0 .black = [] ∧
      Rev.is_valid_move C1board 0 0 .black = true ∧
      (Rev.apply_move C1board .black ⟨0, 0⟩).2 = some .flipCrash ∧
      Rev.readCell (Rev.apply_move C1board .black ⟨0, 0⟩).1 0 1 = .black := by
  decide

/-! ## Claim C4 -/

/-- The error of `Rev.flipAll`, when there is one, is always the
`ValueError` crash — never one of the `IncorrectMove` cases. -/
theorem Rev.flipAll_err (l : List (Nat × Nat)) : ∀ b : Rev.Board,
    (Rev.flipAll b l).2 = none ∨ (Rev.flipAll b l).2 = some .flipCrash := by
  induction l with
  | nil => intro b; exact Or.inl rfl
  | cons hd tl ih =>
    intro b
    obtain ⟨x, y⟩ := hd
    cases h : (Rev.readCell b x y).inverse? with
    | none => right; simp [Rev.flipAll, h]
    | some v => simpa [Rev.flipAll, h] using ih (Rev.setCell b x y v)

/-- C4: in both board games, whenever `apply_move` raises one of its
`IncorrectMove` failures (bad coordinates, occupied target cell, or — in
Reversi — a capture-less move), the board is returned exactly as it was:
all three checks precede any mutation.  (The Reversi hypothesis
`e ≠ flipCrash` restricts to the claim's enumerated failure reasons; the
uncaught `ValueError` of C1 is a crash, not an `IncorrectMove`.) -/
theorem C4_board_unchanged_on_invalid_move :
    (∀ (b : TTT.Board) (p : TTT.Player) (m : TTT.Move) (e : TTT.MoveErr),
        (TTT.apply_move b p m).2 = some e → (TTT.apply_move b p m).1 = b) ∧
    (∀ (b : Rev.Board) (p : Rev.Player) (m : Rev.Move) (e : Rev.MoveErr),
        e ≠ .flipCrash → (Rev.apply_move b p m).2 = some e →
        (Rev.apply_move b p m).1 = b) := by
  constructor
  · intro b p m e h
    by_cases h1 : m.row < 0 ∨ m.row ≥ (TTT.size : Int) ∨ m.column < 0 ∨
        m.column ≥ (TTT.size : Int)
    · simp [TTT.apply_move, h1]
    · by_cases h2 : TTT.readCell b m.row.toNat m.column.toNat ≠ .empty
      · simp [TTT.apply_move, h1, h2]
      · exfalso
        simp [TTT.apply_move, h1, h2] at h
  · intro b p m e hne h
    by_cases h1 : Rev.is_valid_coordinates m.row m.column = true
    · by_cases h2 : Rev.cellAt b m.row m.column = .empty
      · by_cases h3 : Rev.is_valid_move b m.row m.column p.cell = true
        · exfalso
          simp only [Rev.apply_move, h1, h2, h3] at h
          simp at h
          rcases Rev.flipAll_err
              (Rev.get_flipped_cells_for_move
                (Rev.setCell b m.row.toNat m.column.toNat p.cell) m.row
                m.column p.cell)
              (Rev.setCell b m.row.toNat m.column.toNat p.cell) with h0 | h0 <;>
            rw [h] at h0
          · cases h0
          · exact hne (Option.some_injective _ h0.symm).symm
        · simp [Rev.apply_move, h1, h2, h3]
      · simp [Rev.apply_move, h1, h2]
    · simp [Rev.apply_move, h1]

/-- Witness for C4 at concrete failing inputs: out-of-range coordinates
in the 3×3 game, a capture-less move in the 8×8 game. -/
theorem C4_board_unchanged_on_invalid_move_witness :
    (TTT.apply_move TTT.initial .x ⟨3, 1⟩).1 = TTT.initial ∧
      (Rev.apply_move Rev.initial .black ⟨0, 0⟩).1 = Rev.initial :=
  ⟨C4_board_unchanged_on_invalid_move.1 TTT.initial .x ⟨3, 1⟩ .badCoords
      (by decide),
    C4_board_unchanged_on_invalid_move.2 Rev.initial .black ⟨0, 0⟩ .noFlips
      (by decide) (by decide)⟩

/-! ## Claim C8 -/

/-- Reading after a 3×3 cell write: either unchanged, or the written
cell with the written value. -/
theorem TTT.readCell_after_setCell (b : TTT.Board) (x y : Nat) (v : TTT.Cell)
    (r c : Nat) :
    TTT.readCell (TTT.setCell b x y v) r c = TTT.readCell b r c ∨
      (r = x ∧ c = y ∧ TTT.readCell (TTT.setCell b x y v) r c = v) :=
  gridGet_gridSet _ b x y v r c

/-- Reading after an 8×8 cell write: either unchanged, or the written
cell with the written value. -/
theorem Rev.readCell_after_set (b : Rev.Board) (x y : Nat) (v : Rev.Cell)
    (r c : Nat) :
    Rev.readCell (Rev.setCell b x y v) r c = Rev.readCell b r c ∨
      (r = x ∧ c = y ∧ Rev.readCell (Rev.setCell b x y v) r c = v) :=
  gridGet_gridSet _ b x y v r c

/-- The per-cell transition relation of a single Reversi flip sequence:
a cell is left alone or changed to the inverse of an owned colour. -/
def Rev.cellRel (a b : Rev.Cell) : Prop :=
  b = a ∨ a.inverse? = some b

theorem Rev.cellRel_refl (a : Rev.Cell) : Rev.cellRel a a := Or.inl rfl

theorem Rev.cellRel_trans {a b c : Rev.Cell} (hab : Rev.cellRel a b)
    (hbc : Rev.cellRel b c) : Rev.cellRel a c := by
  cases a <;> cases b <;> cases c <;>
    simp_all [Rev.cellRel, Rev.Cell.inverse?]

theorem Rev.cellRel_ne_empty {a b : Rev.Cell} (h : Rev.cellRel a b)
    (ha : a ≠ .empty) : b ≠ .empty := by
  cases a <;> cases b <;> simp_all [Rev.cellRel, Rev.Cell.inverse?]

/-- Every cell of the board evolves along `cellRel` through the flip
loop, whether or not the loop crashes. -/
theorem Rev.flipAll_cellRel (l : List (Nat × Nat)) : ∀ (b : Rev.Board)
    (r c : Nat),
    Rev.cellRel (Rev.readCell b r c) (Rev.readCell (Rev.flipAll b l).1 r c) := by
  induction l with
  | nil => intro b r c; exact Rev.cellRel_refl _
  | cons hd tl ih =>
    intro b r c
    obtain ⟨x, y⟩ := hd
    cases h : (Rev.readCell b x y).inverse? with
    | none =>
      simp only [Rev.flipAll, h]
      exact Rev.cellRel_refl _
    | some v =>
      simp only [Rev.flipAll, h]
      refine Rev.cellRel_trans ?_ (ih (Rev.setCell b x y v) r c)
      rcases Rev.readCell_after_set b x y v r c with h0 | ⟨hr, hc, h0⟩
      · exact Or.inl h0
      · subst hr; subst hc
        right
        rw [h0]
        exact h

/-- `play`'s successive applications of `apply_move` (3×3 game): the
board threaded through a sequence of proposed moves. -/
def TTT.applySeq (b : TTT.Board) (ms : List (TTT.Player × TTT.Move)) :
    TTT.Board :=
  ms.foldl (fun b pm => (TTT.apply_move b pm.1 pm.2).1) b

/-- `play`'s successive applications of `apply_move` (8×8 game). -/
def Rev.applySeq (b : Rev.Board) (ms : List (Rev.Player × Rev.Move)) :
    Rev.Board :=
  ms.foldl (fun b pm => (Rev.apply_move b pm.1 pm.2).1) b

/-- A single 3×3 `apply_move` never turns an owned cell back to empty. -/
theorem TTT.apply_move_never_empties (b : TTT.Board) (p : TTT.Player)
    (m : TTT.Move) (r c : Nat) (h : TTT.readCell b r c ≠ .empty) :
    TTT.readCell (TTT.apply_move b p m).1 r c ≠ .empty := by
  unfold TTT.apply_move
  split
  · exact h
  · split
    · exact h
    · exact gridGet_gridSet_ne _ b _ _ _ r c h
        (by cases p <;> simp [TTT.Player.cell])

/-- A single 8×8 `apply_move` never turns an owned cell back to empty,
even on the crashing path. -/
theorem Rev.apply_move_never_empties_cell (b : Rev.Board) (p : Rev.Player)
    (m : Rev.Move) (r c : Nat) (h : Rev.readCell b r c ≠ .empty) :
    Rev.readCell (Rev.apply_move b p m).1 r c ≠ .empty := by
  unfold Rev.apply_move
  split
  · exact h
  · split
    · exact h
    · split
      · exact h
      · refine Rev.cellRel_ne_empty (Rev.flipAll_cellRel _ _ r c) ?_
        exact gridGet_gridSet_ne _ b _ _ _ r c h
          (by cases p <;> simp [Rev.Player.cell])

/-- C8: in both board games, a successfully applied move changes each
cell only from empty to an owned cell (the mover's mark; in Reversi the
placed cell) or — in Reversi only — from one owned colour to its
inverse via capture-flip; and over any sequence of applied moves
(including rejected ones, which leave the board alone) no cell that is
owned ever becomes empty again. -/
theorem C8_cells_never_reset_to_empty :
    (∀ (b : TTT.Board) (p : TTT.Player) (m : TTT.Move),
        (TTT.apply_move b p m).2 = none → ∀ r c : Nat,
          TTT.readCell (TTT.apply_move b p m).1 r c = TTT.readCell b r c ∨
            (TTT.readCell b r c = .empty ∧
              TTT.readCell (TTT.apply_move b p m).1 r c = p.cell)) ∧
    (∀ (b : Rev.Board) (p : Rev.Player) (m : Rev.Move),
        (Rev.apply_move b p m).2 = none → ∀ r c : Nat,
          Rev.readCell (Rev.apply_move b p m).1 r c = Rev.readCell b r c ∨
            (Rev.readCell b r c = .empty ∧
              Rev.readCell (Rev.apply_move b p m).1 r c ≠ .empty) ∨
            (Rev.readCell b r c).inverse?
              = some (Rev.readCell (Rev.apply_move b p m).1 r c)) ∧
    (∀ (b : TTT.Board) (ms : List (TTT.Player × TTT.Move)) (r c : Nat),
        TTT.readCell b r c ≠ .empty →
        TTT.readCell (TTT.applySeq b ms) r c ≠ .empty) ∧
    (∀ (b : Rev.Board) (ms : List (Rev.Player × Rev.Move)) (r c : Nat),
        Rev.readCell b r c ≠ .empty →
        Rev.readCell (Rev.applySeq b ms) r c ≠ .empty) := by
  refine ⟨?_, ?_, ?_, ?_⟩
  · intro b p m hs r c
    by_cases h1 : m.row < 0 ∨ m.row ≥ (TTT.size : Int) ∨ m.column < 0 ∨
        m.column ≥ (TTT.size : Int)
    · simp [TTT.apply_move, h1] at hs
    by_cases h2 : TTT.readCell b m.row.toNat m.column.toNat ≠ .empty
    · simp [TTT.apply_move, h1, h2] at hs
    have hres : TTT.apply_move b p m
        = (TTT.setCell b m.row.toNat m.column.toNat p.cell, none) := by
      simp [TTT.apply_move, h1, h2]
    rw [hres]
    rcases TTT.readCell_after_setCell b m.row.toNat m.column.toNat p.cell r c with
      h0 | ⟨hr, hc, h0⟩
    · exact Or.inl h0
    · subst hr; subst hc
      exact Or.inr ⟨not_not.mp h2, h0⟩
  · intro b p m hs r c
    by_cases h1 : Rev.is_valid_coordinates m.row m.column = true
    · by_cases h2 : Rev.cellAt b m.row m.column = .empty
      · by_cases h3 : Rev.is_valid_move b m.row m.column p.cell = true
        · have hres : Rev.apply_move b p m
              = Rev.flipAll (Rev.setCell b m.row.toNat m.column.toNat p.cell)
                  (Rev.get_flipped_cells_for_move
                    (Rev.setCell b m.row.toNat m.column.toNat p.cell)
                    m.row m.column p.cell) := by
            simp [Rev.apply_move, h1, h2, h3]
          rw [hres]
          have hstep := Rev.flipAll_cellRel
            (Rev.get_flipped_cells_for_move
              (Rev.setCell b m.row.toNat m.column.toNat p.cell)
              m.row m.column p.cell)
            (Rev.setCell b m.row.toNat m.column.toNat p.cell) r c
          rcases Rev.readCell_after_set b m.row.toNat m.column.toNat p.cell r c
            with h0 | ⟨hr, hc, h0⟩
          · rw [h0] at hstep
            rcases hstep with hfix | hflip
            · exact Or.inl hfix
            · exact Or.inr (Or.inr hflip)
          · subst hr; subst hc
            rw [h0] at hstep
            right; left
            refine ⟨h2, ?_⟩
            refine Rev.cellRel_ne_empty hstep ?_
            cases p <;> simp [Rev.Player.cell]
        · simp [Rev.apply_move, h1, h2, h3] at hs
      · simp [Rev.apply_move, h1, h2] at hs
    · simp [Rev.apply_move, h1] at hs
  · intro b ms
    induction ms generalizing b with
    | nil => intro r c h; exact h
    | cons pm tl ih =>
      intro r c h
      exact ih _ r c (TTT.apply_move_never_empties b pm.1 pm.2 r c h)
  · intro b ms
    induction ms generalizing b with
    | nil => intro r c h; exact h
    | cons pm tl ih =>
      intro r c h
      exact ih _ r c (Rev.apply_move_never_empties_cell b pm.1 pm.2 r c h)

/-- Witness for C8 at concrete inputs: a successful first 3×3 move and a
successful Reversi opening move from the initial positions. -/
theorem C8_cells_never_reset_to_empty_witness :
    (TTT.readCell (TTT.apply_move TTT.initial .x ⟨1, 1⟩).1 0 0
        = TTT.readCell TTT.initial 0 0 ∨
      (TTT.readCell TTT.initial 0 0 = .empty ∧
        TTT.readCell (TTT.apply_move TTT.initial .x ⟨1, 1⟩).1 0 0
          = TTT.Player.x.cell)) ∧
    Rev.readCell (Rev.applySeq Rev.initial [(.black, ⟨2, 3⟩)]) 3 4 ≠ .empty :=
  ⟨C8_cells_never_reset_to_empty.1 TTT.initial .x ⟨1, 1⟩ (by decide) 0 0,
    C8_cells_never_reset_to_empty.2.2.2 Rev.initial [(.black, ⟨2, 3⟩)] 3 4
      (by decide)⟩

namespace Kir

/-! ## Kirzhanovsky numeric game (`src/Kirzhanovsky/kirzhanovsky.py`) -/

/-- `sorted(enumerate(round), key=operator.itemgetter(1))` in
`Game._find_winner`: the round's `(player_id, player_move)` pairs in
ascending order of the chosen value (Python's sort is stable;
`insertionSort` with `≤` on the value is as well, and ties never matter
here because tied values are never unique). -/
def sortedPairs (round : List Int) : List (Nat × Int) :=
  List.insertionSort (fun a b => a.2 ≤ b.2) round.enum

/-- The body of the round-scoring loop of `Game._find_winner`
(kirzhanovsky.py lines 146–156): scanning the sorted pairs, the first
player whose value has occurrence count 1 (`counts[player_move] == 1`,
with `counts` tallied by `round.count`). -/
def roundWinner (round : List Int) : Option (Nat × Int) :=
  (sortedPairs round).find? fun p => decide (round.count p.2 = 1)

/-- `scores[player_id] += player_move`. -/
def addToScores (scores : List Int) (i : Nat) (v : Int) : List Int :=
  scores.set i (scores.getD i 0 + v)

/-- One iteration of `_find_winner`'s `for round_id, round in
enumerate(self.history)` loop: the round's winner, if any, gains their
chosen value; `break` stops after the first unique value. -/
def scoreRound (scores : List Int) (round : List Int) : List Int :=
  match roundWinner round with
  | some (i, v) => addToScores scores i v
  | none => scores

/-- The score tally of `Game._find_winner` (kirzhanovsky.py lines
144–156): `scores = [0] * len(self.players)` folded over the history. -/
def find_winner_scores (n : Nat) (history : List (List Int)) : List Int :=
  history.foldl scoreRound (List.replicate n 0)

/-- The match state touched by `Game._make_one_move`: history of rounds,
round counter and (possibly undecided) winner. -/
structure KMatch where
  history : List (List Int)
  move_number : Nat
  winner : Option Nat

/-- `Game._make_one_move` (kirzhanovsky.py lines 122–126): collect the
round's moves (a forfeited player contributing the sentinel `-1` from
`_safe_move`), append them to the history and bump the round counter.
The winner field is untouched: a forfeit never ends the match. -/
def make_one_move (st : KMatch) (moves : List Int) : KMatch :=
  { st with history := st.history ++ [moves], move_number := st.move_number + 1 }

end Kir

instance : IsTotal (Nat × Int) (fun a b => a.2 ≤ b.2) :=
  ⟨fun a b => le_total a.2 b.2⟩

instance : IsTrans (Nat × Int) (fun a b => a.2 ≤ b.2) :=
  ⟨fun _ _ _ => le_trans⟩

example : Kir.roundWinner [3, 3, 5] = some (2, 5) := by decide
example : Kir.roundWinner [2, 3, 2, 3] = none := by decide
example : Kir.find_winner_scores 3 [[3, 3, 5], [1, 2, 3]]
    = [1, 0, 5] := by decide

/-! ## Claim C6 -/

/-- `find?` on a `Pairwise r`-sorted list returns an element `r`-below
every other satisfying element. -/
theorem find?_min_of_pairwise {α : Type} {r : α → α → Prop} {q : α → Bool} :
    ∀ l : List α, l.Pairwise r → ∀ p, l.find? q = some p →
      ∀ x ∈ l, q x = true → p = x ∨ r p x := by
  intro l
  induction l with
  | nil => intro _ p h; cases h
  | cons a t ih =>
    intro hpw p hf x hx hq
    rcases List.pairwise_cons.mp hpw with ⟨ha, ht⟩
    by_cases hqa : q a = true
    · rw [List.find?_cons_of_pos _ hqa] at hf
      injection hf with hf
      subst hf
      rcases List.mem_cons.mp hx with rfl | hx
      · exact Or.inl rfl
      · exact Or.inr (ha x hx)
    · rw [List.find?_cons_of_neg _ (by simpa using hqa)] at hf
      rcases List.mem_cons.mp hx with rfl | hx
      · exact absurd hq hqa
      · exact ih ht p hf x hx hq

/-- Membership in the sorted pair list is exactly being an
(index, value) entry of the round. -/
theorem mem_sortedPairs {round : List Int} {p : Nat × Int} :
    p ∈ Kir.sortedPairs round ↔ round[p.1]? = some p.2 := by
  unfold Kir.sortedPairs
  rw [(List.perm_insertionSort _ round.enum).mem_iff]
  exact List.mem_enum_iff_getElem?

/-- Characterisation of `Kir.roundWinner`: none when no value is unique;
otherwise the entry holding the least value of occurrence count 1. -/
theorem roundWinner_spec (round : List Int) :
    ((∀ v ∈ round, round.count v ≠ 1) → Kir.roundWinner round = none) ∧
    ((∃ v ∈ round, round.count v = 1) →
      ∃ i v, Kir.roundWinner round = some (i, v) ∧ round[i]? = some v ∧
        round.count v = 1 ∧ ∀ w ∈ round, round.count w = 1 → v ≤ w) := by
  constructor
  · intro h
    unfold Kir.roundWinner
    rw [List.find?_eq_none]
    intro x hx
    have hmem : x.2 ∈ round := List.getElem?_mem (mem_sortedPairs.mp hx)
    simp [h x.2 hmem]
  · rintro ⟨v, hv, hc⟩
    obtain ⟨i, hi⟩ := List.getElem?_of_mem hv
    have hmemS : (i, v) ∈ Kir.sortedPairs round := mem_sortedPairs.mpr hi
    have hsome : ((Kir.sortedPairs round).find? fun p =>
        decide (round.count p.2 = 1)).isSome := by
      rw [List.find?_isSome]
      exact ⟨(i, v), hmemS, by simpa using hc⟩
    obtain ⟨p, hp⟩ := Option.isSome_iff_exists.mp hsome
    obtain ⟨pi, pv⟩ := p
    refine ⟨pi, pv, hp, mem_sortedPairs.mp (List.mem_of_find?_eq_some hp),
      by simpa using List.find?_some hp, ?_⟩
    intro w hw hcw
    obtain ⟨j, hj⟩ := List.getElem?_of_mem hw
    have hmw : (j, w) ∈ Kir.sortedPairs round := mem_sortedPairs.mpr hj
    have hsorted : (Kir.sortedPairs round).Pairwise
        (fun a b => a.2 ≤ b.2) :=
      List.sorted_insertionSort _ round.enum
    rcases find?_min_of_pairwise _ hsorted _ hp (j, w) hmw
        (by simpa using hcw) with heq | hle
    · cases heq; exact le_refl _
    · exact hle

/-- C6: in each recorded round, if some value occurs exactly once then
exactly one player scores — the holder of the lowest value of count 1 —
and gains that value; if no value occurs exactly once nobody scores; in
particular for the round {3, 3, 5} the player who chose 5 gains 5 points
and the two players who chose 3 gain nothing. -/
theorem C6_lowest_unique_value_wins_round :
    ∀ round : List Int,
      ((∀ v ∈ round, round.count v ≠ 1) → Kir.roundWinner round = none) ∧
      ((∃ v ∈ round, round.count v = 1) →
        ∃ i v, Kir.roundWinner round = some (i, v) ∧
          round[i]? = some v ∧ round.count v = 1 ∧
          (∀ w ∈ round, round.count w = 1 → v ≤ w) ∧
          (∀ scores, Kir.scoreRound scores round
            = Kir.addToScores scores i v)) ∧
      Kir.find_winner_scores 3 [[3, 3, 5]] = [0, 0, 5] := by
  intro round
  refine ⟨(roundWinner_spec round).1, ?_, by decide⟩
  intro hex
  obtain ⟨i, v, hw, hgv, hcv, hmin⟩ := (roundWinner_spec round).2 hex
  refine ⟨i, v, hw, hgv, hcv, hmin, ?_⟩
  intro scores
  unfold Kir.scoreRound
  rw [hw]

/-- Witness for C6 at the spec's round {3, 3, 5}. -/
theorem C6_lowest_unique_value_wins_round_witness :
    ∃ i v, Kir.roundWinner [3, 3, 5] = some (i, v) ∧
      ([(3 : Int), 3, 5])[i]? = some v ∧ ([(3 : Int), 3, 5]).count v = 1 ∧
      (∀ w ∈ [(3 : Int), 3, 5], ([(3 : Int), 3, 5]).count w = 1 → v ≤ w) ∧
      (∀ scores, Kir.scoreRound scores [3, 3, 5]
        = Kir.addToScores scores i v) :=
  (C6_lowest_unique_value_wins_round [3, 3, 5]).2.1 ⟨5, by decide, by decide⟩

/-! ## Claim C5 -/

/-- A value held at exactly one index occurs exactly once. -/
theorem count_eq_one_of_unique_index (a : Int) :
    ∀ (l : List Int) (f : Nat), l[f]? = some a →
      (∀ j w, l[j]? = some w → j ≠ f → w ≠ a) → l.count a = 1 := by
  intro l
  induction l with
  | nil => intro f hf; cases hf
  | cons b t ih =>
    intro f hf ho
    cases f with
    | zero =>
      rw [List.getElem?_cons_zero] at hf
      injection hf with hf
      subst hf
      rw [List.count_cons_self]
      have hz : t.count b = 0 := by
        rw [List.count_eq_zero]
        intro hmem
        obtain ⟨j, hj⟩ := List.getElem?_of_mem hmem
        exact ho (j + 1) b (by simpa using hj) (Nat.succ_ne_zero j) rfl
      rw [hz]
    | succ f =>
      rw [List.getElem?_cons_succ] at hf
      have hb : b ≠ a :=
        ho 0 b List.getElem?_cons_zero (Nat.succ_ne_zero f).symm
      rw [List.count_cons_of_ne (fun h => hb h.symm)]
      exact ih f hf fun j w hj hne =>
        ho (j + 1) w (by simpa using hj) (fun h => hne (Nat.succ_injective h))

/-- C5, counterexample: in the round where player 0 forfeited (sentinel
-1 recorded) and players 1, 2 chose 2 and 3, the claim says scores
[0, 2, 0] (forfeiter unchanged, value 2 is the lowest unique among the
real submissions); the code computes [-1, 0, 0]. -/
theorem C5_counterexample :
    Kir.find_winner_scores 3 [[-1, 2, 3]] = [-1, 0, 0] ∧
      Kir.find_winner_scores 3 [[-1, 2, 3]] ≠ [0, 2, 0] := by decide

/-- C5, amended: when a player's retries are exhausted, `_safe_move`
records the sentinel `-1` as that player's value for the round, and
`_find_winner` scores the sentinel like any chosen value; so in a round
with exactly one forfeiter (all other values being legal, hence ≥ 1) the
forfeiter holds the unique lowest value -1, "wins" the round, and their
cumulative score changes by -1, while no other player scores that round;
the forfeit does not end the match (`_make_one_move` never sets a
winner). -/
theorem C5_forfeit_scores_minus_one :
    ∀ (round : List Int) (f : Nat),
      round[f]? = some (-1) →
      (∀ j w, round[j]? = some w → j ≠ f → 1 ≤ w) →
      Kir.roundWinner round = some (f, -1) ∧
      (∀ scores, Kir.scoreRound scores round
        = Kir.addToScores scores f (-1)) ∧
      (∀ (st : Kir.KMatch) (moves : List Int),
        (Kir.make_one_move st moves).winner = st.winner) := by
  intro round f hf ho
  have hcount : round.count (-1) = 1 :=
    count_eq_one_of_unique_index (-1) round f hf
      (fun j w hj hne => by
        have := ho j w hj hne
        omega)
  have hmem : (-1 : Int) ∈ round := List.getElem?_mem hf
  obtain ⟨i, v, hw, hgv, hcv, hmin⟩ :=
    (roundWinner_spec round).2 ⟨-1, hmem, hcount⟩
  have hvle : v ≤ -1 := hmin (-1) hmem hcount
  have hvmem : v ∈ round := List.getElem?_mem hgv
  have hif : i = f := by
    by_contra hne
    have := ho i v hgv hne
    omega
  subst hif
  have hveq : v = -1 := by
    rw [hf] at hgv
    exact (Option.some_injective _ hgv).symm
  subst hveq
  refine ⟨hw, ?_, fun st moves => rfl⟩
  intro scores
  unfold Kir.scoreRound
  rw [hw]

/-- Witness for C5's amended theorem at the round [-1, 2, 3]. -/
theorem C5_forfeit_scores_minus_one_witness :
    Kir.roundWinner [-1, 2, 3] = some (0, -1) ∧
      (∀ scores, Kir.scoreRound scores [-1, 2, 3]
        = Kir.addToScores scores 0 (-1)) ∧
      (∀ (st : Kir.KMatch) (moves : List Int),
        (Kir.make_one_move st moves).winner = st.winner) :=
  C5_forfeit_scores_minus_one [-1, 2, 3] 0 (by decide)
    (by
      intro j w hj hne
      rcases j with _ | _ | _ | j
      · exact absurd rfl hne
      · rw [show ([(-1 : Int), 2, 3])[1]? = some 2 from rfl] at hj
        injection hj with hj
        omega
      · rw [show ([(-1 : Int), 2, 3])[2]? = some 3 from rfl] at hj
        injection hj with hj
        omega
      · cases hj)

/-! ## Claim C2 -/

/-- `INCORRECT_MOVE_TRIES_LIMIT`, identical in all three games. -/
def INCORRECT_MOVE_TRIES_LIMIT : Nat := 5

/-- The retry loop shared verbatim by `Game._make_one_move`
(tictactoe.py lines 207–242, reversi.py lines 243–278) and
`Game._safe_move` (kirzhanovsky.py lines 83–120):

    try_index = 1
    while try_index < self.INCORRECT_MOVE_TRIES_LIMIT:
        ... solicit a move from the same player for the same turn ...
        (valid -> break; invalid/error/timeout -> try_index += 1)
    else:
        ... forfeit ...

`valid i` is whether the i-th solicited response validates.  The fuel is
`LIMIT - try_index`, so `fuel = 0` is exactly the loop condition
`try_index < LIMIT` failing, which triggers the `else:` forfeit branch.
Returns (number of solicitations performed, whether the player was
forfeited). -/
def retry_loop (valid : Nat → Bool) : Nat → Nat → Nat × Bool
  | 0, tryIndex => (tryIndex - 1, true)
  | fuel + 1, tryIndex =>
    if valid tryIndex then (tryIndex, false)
    else retry_loop valid fuel (tryIndex + 1)

/-- One whole turn's solicitation, as each game runs it:
`try_index = 1` and the loop bound `INCORRECT_MOVE_TRIES_LIMIT`. -/
def make_one_move_tries (valid : Nat → Bool) : Nat × Bool :=
  retry_loop valid (INCORRECT_MOVE_TRIES_LIMIT - 1) 1

/-- C2: the claim (and the spec, and the code's own forfeit log message
`'... за %d попыток' % INCORRECT_MOVE_TRIES_LIMIT`, i.e. "in 5 tries")
says an always-invalid player is forfeited after exactly 5 total tries;
but `try_index` starts at 1 and the loop guard is
`try_index < INCORRECT_MOVE_TRIES_LIMIT`, so the body runs only for
`try_index ∈ {1, 2, 3, 4}`: exactly 4 solicitations, then forfeit.  The
same off-by-one loop appears in all three games.  Additionally, a player
whose first valid response comes on try 3 is re-solicited for the same
turn and not forfeited. -/
theorem C2_forfeit_after_four_tries_not_five :
    make_one_move_tries (fun _ => false) = (4, true) ∧
      (make_one_move_tries (fun _ => false)).1 ≠ 5 ∧
      make_one_move_tries (fun i => decide (i = 3)) = (3, false) := by
  decide

/-! ## Claim C7 -/

namespace Kir

/-- The shapes of value an agent's `move(history)` can hand back that
matter to `_safe_move`'s checks: `None` (the sandbox's timeout result),
a Python `int`, a Python `float` (modelled by a rational: floats support
both `'%d'` formatting and `<`/`>` comparison with ints), or a
non-numeric object (supports neither). -/
inductive PyVal where
  | none_
  | intVal (n : Int)
  | floatVal (q : ℚ)
  | nonNumeric
  deriving DecidableEq

/-- Which check fails (first) for one solicited response. -/
inductive FailKind where
  | ok
  | errorFail
  | rangeFail
  | typeFail
  deriving DecidableEq, Repr

/-- `Game._safe_move`'s per-attempt validation (kirzhanovsky.py lines
93–104), in the code's order: (1) the log line `'Ход игрока %s: %d' %
(..., move)` raises `TypeError` on `None` and on non-numeric objects —
caught by the inner `except Exception` and reported as the generic
error; (2) `if move < 1 or move > len(self.players)` raises the range
`IncorrectMove` (this is also swallowed and re-wrapped by the same
`except Exception`, but the check that fails is the range check); (3)
only after both does `isinstance(move, int)` — the structural-type
check — run.  A float reaches (2) before its type is ever examined. -/
def validate_response (nPlayers : Nat) : PyVal → FailKind
  | .none_ => .errorFail
  | .nonNumeric => .errorFail
  | .intVal n => if n < 1 ∨ n > (nPlayers : Int) then .rangeFail else .ok
  | .floatVal q => if q < 1 ∨ q > (nPlayers : ℚ) then .rangeFail else .typeFail

end Kir

namespace TTT

/-- The shapes of value an agent's `move(board)` can hand back that
matter to `_make_one_move`'s checks: an exception from the call, the
`None` of a timeout, a `Move(row, column)`, or anything else. -/
inductive Resp where
  | errorRaise
  | timeout
  | moveVal (row column : Int)
  | notMove
  deriving DecidableEq

/-- Which check fails (first) for one solicited response. -/
inductive FailKind where
  | ok
  | errorFail
  | typeFail
  | rangeFail
  | occupiedFail
  deriving DecidableEq, Repr

/-- `Game._make_one_move`'s per-attempt validation (tictactoe.py lines
216–227): an exception from the agent call is the generic error; then
`isinstance(move, Move)` — the structural-type check, which also
catches the timeout's `None`; only then `apply_move`, whose first check
is the coordinate range and whose second is vacancy. -/
def validate_response (b : Board) (p : Player) : Resp → FailKind
  | .errorRaise => .errorFail
  | .timeout => .typeFail
  | .notMove => .typeFail
  | .moveVal r c =>
    match (apply_move b p ⟨r, c⟩).2 with
    | some .badCoords => .rangeFail
    | some .occupied => .occupiedFail
    | none => .ok

end TTT

/-- C7, counterexample: in the numeric game, the response `0.5` is both
of the wrong type (a float, not an int) and out of range (< 1), and the
failure the code reports is the range failure, not the structural-type
failure: `move < 1 or move > len(self.players)` runs before
`isinstance(move, int)`. -/
theorem C7_counterexample :
    Kir.validate_response 3 (.floatVal (1 / 2)) = .rangeFail ∧
      Kir.FailKind.rangeFail ≠ Kir.FailKind.typeFail := by
  constructor
  · simp only [Kir.validate_response]
    rw [if_pos]
    exact Or.inl (by norm_num)
  · decide

namespace Rev

/-- The shapes of value an agent's `move(board)` can hand back that
matter to Reversi's `_make_one_move` checks — the same cases as in the
3×3 game. -/
inductive Resp where
  | errorRaise
  | timeout
  | moveVal (row column : Int)
  | notMove
  deriving DecidableEq

/-- Which check fails (first) for one solicited response; `crash` is the
uncaught `ValueError` of the flip loop (claim C1's bug), which escapes
the `except IncorrectMove` handler entirely. -/
inductive FailKind where
  | ok
  | errorFail
  | typeFail
  | rangeFail
  | occupiedFail
  | noFlipsFail
  | crash
  deriving DecidableEq, Repr

/-- `Game._make_one_move`'s per-attempt validation (reversi.py lines
246–263): an exception from the agent call is the generic error; then
`isinstance(move, Move)` — the structural-type check, which also
catches the timeout's `None`; only then `apply_move`, whose checks run
in the order coordinate range, vacancy, must-flip. -/
def validate_response (b : Board) (p : Player) : Resp → FailKind
  | .errorRaise => .errorFail
  | .timeout => .typeFail
  | .notMove => .typeFail
  | .moveVal r c =>
    match (apply_move b p ⟨r, c⟩).2 with
    | some .badCoords => .rangeFail
    | some .occupied => .occupiedFail
    | some .noFlips => .noFlipsFail
    | some .flipCrash => .crash
    | none => .ok

end Rev

/-- C7, amended: in the 3×3 and 8×8 games the structural-type check does
precede the range check — every non-`Move` response (including a
timeout's `None`) is reported as the type failure before any coordinate
is examined; but in the numeric game the range comparison precedes the
`isinstance(move, int)` check, so a wrong-typed numeric response that is
out of range is reported as the range failure, and only an in-range
wrong-typed numeric response is reported as the type failure. -/
theorem C7_type_check_order :
    (∀ (b : TTT.Board) (p : TTT.Player),
        TTT.validate_response b p .notMove = .typeFail ∧
        TTT.validate_response b p .timeout = .typeFail) ∧
    (∀ (b : Rev.Board) (p : Rev.Player),
        Rev.validate_response b p .notMove = .typeFail ∧
        Rev.validate_response b p .timeout = .typeFail) ∧
    (∀ (n : Nat) (q : ℚ), q < 1 ∨ (n : ℚ) < q →
        Kir.validate_response n (.floatVal q) = .rangeFail) ∧
    (∀ (n : Nat) (q : ℚ), 1 ≤ q → q ≤ (n : ℚ) →
        Kir.validate_response n (.floatVal q) = .typeFail) := by
    refine ⟨fun b p => ⟨rfl, rfl⟩, fun b p => ⟨rfl, rfl⟩, ?_, ?_⟩
    · intro n q h
      simp only [Kir.validate_response]
      rw [if_pos h]
    · intro n q h1 h2
      simp only [Kir.validate_response]
      rw [if_neg]
      push_neg
      exact ⟨h1, h2⟩

/-- Witness for C7's amended theorem: the numeric game reports the range
failure for the out-of-range float 0.5 with 3 players. -/
theorem C7_type_check_order_witness :
    Kir.validate_response 3 (.floatVal (1 / 2)) = Kir.FailKind.rangeFail :=
  C7_type_check_order.2.2.1 3 (1 / 2) (Or.inl (by norm_num))

/-! ## Claim C9 -/

/-- A minimal heap model for the aliasing claim: Python list objects
live in a store of rows; a board object is the list of store addresses
of its row lists.  (The cell values themselves are immutable Python
objects — enum members and ints — so only the row lists matter for
mutation.) -/
structure Heap (α : Type) where
  rows : List (List α)

/-- Dereference a row address. -/
def Heap.readRow (h : Heap α) (a : Nat) : List α :=
  h.rows.getD a []

/-- Mutate the row object at an address (any element assignment or other
in-place update an agent could perform on a list it can reach). -/
def Heap.writeRow (h : Heap α) (a : Nat) (row : List α) : Heap α :=
  ⟨h.rows.set a row⟩

/-- `GameBoard.create_copy_for_player` (tictactoe.py lines 169–172 and
reversi.py lines 191–194) in the heap model:
`[[cell.value for cell in row] for row in self.board]` allocates one
fresh list object per original row — new addresses at the end of the
store — holding the transformed row (`g` is `map value`); the copy's
board is the list of those fresh addresses. -/
def copy_for_player_alloc (h : Heap α) (addrs : List Nat)
    (g : List α → List α) : Heap α × List Nat :=
  (⟨h.rows ++ addrs.map (fun a => g (h.readRow a))⟩,
   (List.range addrs.length).map (h.rows.length + ·))

/-- The mutations an agent performs on the rows it can reach through its
copy: a sequence of row writes. -/
def apply_writes (h : Heap α) (ws : List (Nat × List α)) : Heap α :=
  ws.foldl (fun h w => h.writeRow w.1 w.2) h

theorem readRow_writeRow_ne (h : Heap α) (a b : Nat) (row : List α)
    (hne : a ≠ b) : (h.writeRow a row).readRow b = h.readRow b := by
  unfold Heap.readRow Heap.writeRow
  simp [List.getD_eq_getElem?_getD, List.getElem?_set_ne hne]

theorem apply_writes_readRow_ne (a : Nat) :
    ∀ (ws : List (Nat × List α)) (h : Heap α), (∀ w ∈ ws, w.1 ≠ a) →
      (apply_writes h ws).readRow a = h.readRow a := by
  intro ws
  induction ws with
  | nil => intro h _; rfl
  | cons w tl ih =>
    intro h hne
    have : apply_writes h (w :: tl) = apply_writes (h.writeRow w.1 w.2) tl :=
      rfl
    rw [this, ih _ fun x hx => hne x (List.mem_cons_of_mem w hx),
      readRow_writeRow_ne _ _ _ _ (hne w (List.mem_cons_self w tl))]

/-- C9: the board snapshot handed to an agent is an independent copy —
whatever sequence of mutations the agent performs on rows reachable from
its copy (whose addresses are exactly the freshly allocated ones), every
row of the engine-authoritative board reads back unchanged. -/
theorem C9_agent_mutations_cannot_reach_engine_board :
    ∀ (α : Type) (h : Heap α) (addrs : List Nat) (g : List α → List α)
      (ws : List (Nat × List α)),
      (∀ w ∈ ws, w.1 ∈ (copy_for_player_alloc h addrs g).2) →
      ∀ a ∈ addrs, a < h.rows.length →
        (apply_writes (copy_for_player_alloc h addrs g).1 ws).readRow a
          = h.readRow a := by
  intro α h addrs g ws hws a _ha hlt
  have hfresh : ∀ w ∈ ws, w.1 ≠ a := by
    intro w hw
    have hmem := hws w hw
    simp only [copy_for_player_alloc, List.mem_map, List.mem_range] at hmem
    obtain ⟨k, _, hk⟩ := hmem
    omega
  rw [apply_writes_readRow_ne a ws _ hfresh]
  unfold copy_for_player_alloc Heap.readRow
  simp only [List.getD_eq_getElem?_getD]
  rw [List.getElem?_append, if_pos hlt]

/-- Witness for C9 on a concrete two-row heap: the agent overwrites a
row of its copy and the engine's rows are untouched. -/
theorem C9_agent_mutations_cannot_reach_engine_board_witness :
    (apply_writes
        (copy_for_player_alloc (Heap.mk [[1, 2], [3, 4]]) [0, 1] id).1
        [(2, [9, 9])]).readRow 0
      = (Heap.mk ([[1, 2], [3, 4]] : List (List Nat))).readRow 0 :=
  C9_agent_mutations_cannot_reach_engine_board Nat (Heap.mk [[1, 2], [3, 4]])
    [0, 1] id [(2, [9, 9])] (by decide) 0 (by decide) (by decide)

/-! ## Claim C10 -/

/-- C10: in both board games, the snapshot built by
`create_copy_for_player` holds, at every coordinate, exactly the numeric
`.value` of the engine board's enumeration cell there (0 empty, 1 and 2
the two players). -/
theorem C10_snapshot_holds_numeric_cell_values :
    (∀ (b : TTT.Board) (i j : Nat),
        ((TTT.create_copy_for_player b)[i]?.getD [])[j]?
          = ((b[i]?.getD [])[j]?).map TTT.Cell.val) ∧
    (∀ (b : Rev.Board) (i j : Nat),
        ((Rev.create_copy_for_player b)[i]?.getD [])[j]?
          = ((b[i]?.getD [])[j]?).map Rev.Cell.val) := by
  constructor
  · intro b i j
    unfold TTT.create_copy_for_player
    rw [List.getElem?_map]
    cases b[i]? <;> simp
  · intro b i j
    unfold Rev.create_copy_for_player
    rw [List.getElem?_map]
    cases b[i]? <;> simp
